import Mathlib

/-!
Shallow embedding of the pooling-and-caching core of the duckdb_openhexa
repository: the global download-URL cache and URL resolver of
`client.py` (`OpenHexaGraphQLClient.query_file_download_url`,
`OpenHexaGraphQLClient.query_datasets`), the per-user connection pool of
`dialect.py` (`DuckDBOpenHexaDialect._get_or_create_connection`,
`DuckDBOpenHexaDialect.connect`, `PooledConnectionWrapper.close`), and
the table-function layer of `functions.py` (`openhexa_dataset_files`).

Python dicts are modelled as association lists in insertion order (which
is exactly the iteration order of a CPython dict); timestamps
(`time.time()`) are modelled as integers; exceptions as `Except`;
the external GraphQL service as an oracle parameter.
-/

/-- Python dict lookup `d[k]` / `k in d`: the binding for the key, if any
(dict keys are unique, so the first binding is the binding). -/
def dictFind {α β : Type} [DecidableEq α] : List (α × β) → α → Option β
  | [], _ => none
  | (a, b) :: rest, k => if a = k then some b else dictFind rest k

/-- Python `del d[k]`: remove the binding for the key. -/
def dictErase {α β : Type} [DecidableEq α] : List (α × β) → α → List (α × β)
  | [], _ => []
  | (a, b) :: rest, k => if a = k then dictErase rest k else (a, b) :: dictErase rest k

/-- Python `d[k] = v`: replace in place when the key is present (keeping its
position in insertion order), append at the end when the key is new. -/
def dictInsert {α β : Type} [DecidableEq α] : List (α × β) → α → β → List (α × β)
  | [], k, v => [(k, v)]
  | (a, b) :: rest, k, v => if a = k then (k, v) :: rest else (a, b) :: dictInsert rest k v

/-- The keys of a dict in insertion order (`iter(d)`). -/
def dictKeys {α β : Type} (d : List (α × β)) : List α := d.map Prod.fst

/-- One entry of the global `_download_url_cache` of client.py: a
`(url, timestamp)` pair, where a `none` url is a cached negative result
(the service resolved the path to no download URL). -/
structure CacheEntry where
  url : Option String
  createdAt : Int
  deriving Repr, DecidableEq

/-- The global `_download_url_cache : Dict[str, Tuple[Optional[str], float]]`. -/
abbrev DownloadCache := List (String × CacheEntry)

/-- The cache-check step of `query_file_download_url` (client.py lines 146-160):
an entry younger than the TTL is returned as a hit with the cache untouched; a
stale entry is deleted (`del _download_url_cache[file_path]`) and treated as a
miss. Returns `(hit, cache)` where `hit = some url` exactly on a fresh entry. -/
def cacheGet (ttl now : Int) (cache : DownloadCache) (key : String) :
    Option (Option String) × DownloadCache :=
  match dictFind cache key with
  | some e =>
    if now - e.createdAt < ttl then (some e.url, cache)
    else (none, dictErase cache key)
  | none => (none, cache)

/-- First half of the cache-store step of `query_file_download_url`
(client.py lines 209-212): when the cache has reached `_CACHE_SIZE`, the
first key in insertion order (`next(iter(_download_url_cache))`) is deleted. -/
def putEvictStep (maxSize : Nat) (cache : DownloadCache) : DownloadCache :=
  if maxSize ≤ cache.length then cache.tail else cache

/-- Second half of the cache-store step (client.py line 215):
`_download_url_cache[file_path] = (download_url, time.time())`. -/
def putInsertStep (now : Int) (key : String) (url : Option String)
    (cache : DownloadCache) : DownloadCache :=
  dictInsert cache key ⟨url, now⟩

/-- The whole cache-store step of `query_file_download_url`
(client.py lines 208-215): evict-if-full, then insert with the current time. -/
def cachePut (maxSize : Nat) (now : Int) (cache : DownloadCache) (key : String)
    (url : Option String) : DownloadCache :=
  putInsertStep now key url (putEvictStep maxSize cache)

/-- Folding the cache-store step of `query_file_download_url` over a list of
keys, as when a sequence of distinct paths is resolved and cached in order. -/
def insertAll (maxSize : Nat) (now : Int) (url : Option String) :
    List String → DownloadCache → DownloadCache
  | [], c => c
  | k :: ks, c => insertAll maxSize now url ks (cachePut maxSize now c k url)

/-- Character-level model of Python `file_path.split("/")` (client.py line 163):
split on every slash, keeping empty segments. -/
def splitSlashAux : List Char → List Char → List String
  | [], acc => [String.mk acc.reverse]
  | ch :: rest, acc =>
    if ch = '/' then String.mk acc.reverse :: splitSlashAux rest []
    else splitSlashAux rest (ch :: acc)

/-- Python `file_path.split("/")`. -/
def splitSlash (s : String) : List String := splitSlashAux s.data []

/-- Python `"/".join(parts)` (client.py line 169). -/
def joinSlash : List String → String
  | [] => ""
  | [s] => s
  | s :: rest => s ++ "/" ++ joinSlash rest

/-- The path-parsing step of `query_file_download_url` (client.py lines
162-169): the path must split into at least four slash-delimited segments -
workspace, dataset, version, filename, with the filename keeping any further
slashes; fewer segments raise a ValueError (modelled as `none`). -/
def parseFilePath (filePath : String) :
    Option (String × String × String × String) :=
  let parts := splitSlash filePath
  if parts.length < 4 then none
  else some (parts.getD 0 "", parts.getD 1 "", parts.getD 2 "",
    joinSlash (parts.drop 3))

/-- Outcome of the one network round-trip of `query_file_download_url`
(client.py lines 187-229): a successful GraphQL execution whose
`downloadUrl` is extracted by glom with default None (so a not-found file
yields `ok none`), a TransportQueryError, or any other exception. -/
inductive ServiceResult where
  | ok (url : Option String)
  | transportError (msg : String)
  | otherError (msg : String)
  deriving Repr, DecidableEq

/-- Observable outcome of one `query_file_download_url` call: the returned
value or the raised ValueError, the resulting global cache, the number of
network round-trips performed, and the number of cache lookups performed. -/
structure ResolveOut where
  result : Except String (Option String)
  cache : DownloadCache
  networkCalls : Nat
  cacheLookups : Nat
  deriving Repr

/-- The part of `query_file_download_url` after the cache check (client.py
lines 162-229): validate the path (ValueError on fewer than four segments,
before any network activity), then perform one network call; a successful
outcome (a url or the explicit None marker) is stored in the cache with the
current timestamp; a TransportQueryError or any other exception is logged and
swallowed, returning None with the cache left untouched. -/
def resolveMiss (maxSize : Nat) (now : Int) (service : String → ServiceResult)
    (cache : DownloadCache) (filePath : String) (lookups : Nat) : ResolveOut :=
  match parseFilePath filePath with
  | none =>
    { result := Except.error "ValueError: invalid file path format",
      cache := cache, networkCalls := 0, cacheLookups := lookups }
  | some _ =>
    match service filePath with
    | ServiceResult.ok url =>
      { result := Except.ok url,
        cache := cachePut maxSize now cache filePath url,
        networkCalls := 1, cacheLookups := lookups }
    | ServiceResult.transportError _ =>
      { result := Except.ok none, cache := cache,
        networkCalls := 1, cacheLookups := lookups }
    | ServiceResult.otherError _ =>
      { result := Except.ok none, cache := cache,
        networkCalls := 1, cacheLookups := lookups }

/-- `OpenHexaGraphQLClient.query_file_download_url` (client.py lines 138-229):
the global cache is consulted first (exactly one lookup, lines 146-160) - a
fresh entry is returned at once and a stale entry is deleted; only then is the
path parsed and, if valid, one network call made. -/
def query_file_download_url (ttl : Int) (maxSize : Nat) (now : Int)
    (service : String → ServiceResult) (cache : DownloadCache)
    (filePath : String) : ResolveOut :=
  match dictFind cache filePath with
  | some e =>
    if now - e.createdAt < ttl then
      { result := Except.ok e.url, cache := cache,
        networkCalls := 0, cacheLookups := 1 }
    else
      resolveMiss maxSize now service (dictErase cache filePath) filePath 1
  | none => resolveMiss maxSize now service cache filePath 1

/-- One entry of the class-level `DuckDBOpenHexaDialect._connection_pool`
(dialect.py line 35): an underlying DuckDB connection, identified here by a
numeric handle id, plus its creation timestamp. -/
structure PoolEntry where
  connId : Nat
  createdAt : Int
  deriving Repr, DecidableEq

/-- The class-level pool `(user_id, database_path) -> (connection, timestamp)`. -/
abbrev ConnectionPool := List ((String × String) × PoolEntry)

/-- Observable outcome of one `_get_or_create_connection` call: the returned
connection handle (or the propagated construction exception), the resulting
pool, how many times the connection factory was entered, and the handles on
which `close()` was invoked during the call. -/
structure AcquireOut where
  result : Except String Nat
  pool : ConnectionPool
  factoryCalls : Nat
  closedConns : List Nat
  deriving Repr

/-- The creation branch of `_get_or_create_connection` (dialect.py lines
75-93): `duckdb.connect` (modelled by `connectRes`, yielding a fresh handle
id or raising) followed by the one-time setup `conn.execute` calls (modelled
by `initRes`; `_register_udfs` catches its own errors internally, so UDF
registration never raises here). On success the handle is stored under the
key with `createdAt = now`; on failure the exception propagates and the pool
is left exactly as it was when the factory started. -/
def createNewConnection (now : Int) (connectRes : Except String Nat)
    (initRes : Except String Unit) (pool : ConnectionPool)
    (key : String × String) (closed : List Nat) : AcquireOut :=
  match connectRes with
  | Except.error msg =>
    { result := Except.error msg, pool := pool,
      factoryCalls := 1, closedConns := closed }
  | Except.ok cid =>
    match initRes with
    | Except.error msg =>
      { result := Except.error msg, pool := pool,
        factoryCalls := 1, closedConns := closed }
    | Except.ok _ =>
      { result := Except.ok cid, pool := dictInsert pool key ⟨cid, now⟩,
        factoryCalls := 1, closedConns := closed }

/-- `DuckDBOpenHexaDialect._get_or_create_connection` (dialect.py lines
38-93). The whole body runs holding `cls._pool_lock`, so one call is one
atomic critical section. An existing entry is reused iff its age does not
exceed the TTL (the code tests `age_seconds > _CONNECTION_TTL_SECONDS` for
expiry, so age equal to the TTL still reuses) and the liveness probe
`conn.execute("SELECT 1")` (modelled by `probe`) succeeds. An expired entry
has `close()` invoked on it (exceptions suppressed) and is deleted; an entry
whose probe fails is deleted without `close()`; in both cases, and on a plain
miss, a new connection is built. -/
def get_or_create_connection (ttl now : Int) (probe : Nat → Bool)
    (connectRes : Except String Nat) (initRes : Except String Unit)
    (pool : ConnectionPool) (key : String × String) : AcquireOut :=
  match dictFind pool key with
  | some e =>
    if ttl < now - e.createdAt then
      createNewConnection now connectRes initRes (dictErase pool key) key
        [e.connId]
    else if probe e.connId then
      { result := Except.ok e.connId, pool := pool,
        factoryCalls := 0, closedConns := [] }
    else
      createNewConnection now connectRes initRes (dictErase pool key) key []
  | none => createNewConnection now connectRes initRes pool key []

/-- The `PooledConnectionWrapper` defined inside `DuckDBOpenHexaDialect.connect`
(dialect.py lines 178-191): the wrapped connection handle, the pool key, and
the SQLAlchemy-facing closed flag (false on construction). -/
structure PooledConnectionWrapper where
  conn : Nat
  poolKey : String × String
  closed : Bool
  deriving Repr, DecidableEq

/-- The wider mutable state that `PooledConnectionWrapper.close` could in
principle touch: the class-level pool and the handles that were really
closed. -/
structure PoolState where
  pool : ConnectionPool
  closedConns : List Nat
  deriving Repr

/-- `PooledConnectionWrapper.close` (dialect.py lines 184-188): the body is
exactly `self.closed = True` plus a log line; the underlying connection and
the pool are untouched. -/
def wrapperClose (w : PooledConnectionWrapper) (s : PoolState) :
    PooledConnectionWrapper × PoolState :=
  ({ w with closed := true }, s)

/-- The pooled branch of `DuckDBOpenHexaDialect.connect` (dialect.py lines
137-191): compute the pool key, call `_get_or_create_connection`, and wrap
the handle in a fresh `PooledConnectionWrapper`; a factory exception
propagates to the caller. The in-memory bypass (lines 193-195) and the
per-request config application are outside this model. -/
def dialectConnect (ttl now : Int) (probe : Nat → Bool)
    (connectRes : Except String Nat) (initRes : Except String Unit)
    (pool : ConnectionPool) (userId databasePath : String) :
    Except String PooledConnectionWrapper × ConnectionPool :=
  let a := get_or_create_connection ttl now probe connectRes initRes pool
    (userId, databasePath)
  match a.result with
  | Except.error msg => (Except.error msg, a.pool)
  | Except.ok cid => (Except.ok ⟨cid, (userId, databasePath), false⟩, a.pool)

/-- A serialized sequence of `_get_or_create_connection` calls for one key: the
class-level `_pool_lock` (dialect.py line 51) makes concurrent callers execute
the whole acquire body one after another, so N concurrent acquires are some
serialization of N calls. Returns the total number of factory invocations, the
per-call results, and the final pool. -/
def acquireSeq (ttl : Int) (probe : Nat → Bool) (cr : Except String Nat)
    (ir : Except String Unit) (key : String × String) :
    List Int → ConnectionPool → Nat × List (Except String Nat) × ConnectionPool
  | [], pool => (0, [], pool)
  | t :: ts, pool =>
    let a := get_or_create_connection ttl t probe cr ir pool key
    let r := acquireSeq ttl probe cr ir key ts a.pool
    (a.factoryCalls + r.1, a.result :: r.2.1, r.2.2)

/-- A file item of the nested GraphQL dataset response (client.py lines
122-133), after the `.get(...)` defaults are applied. -/
structure FileItem where
  filename : String
  deriving Repr, DecidableEq

/-- A version item of the nested GraphQL dataset response. -/
structure VersionItem where
  name : String
  files : List FileItem
  deriving Repr, DecidableEq

/-- A dataset item of the nested GraphQL dataset response; `workspaceSlug` is
already defaulted to the empty string when the workspace block is missing
(client.py lines 111-112). -/
structure DatasetItem where
  slug : String
  workspaceSlug : String
  versions : List VersionItem
  deriving Repr, DecidableEq

/-- One flattened record of `_flatten_datasets` (client.py lines 125-133). -/
structure DatasetRecord where
  workspace : String
  dataset : String
  version : String
  filename : String
  file_path : String
  deriving Repr, DecidableEq

/-- The filter guard of `_flatten_datasets` (client.py line 115):
`if workspace_filter and workspace_slug != workspace_filter: continue` - a
dataset is skipped iff the filter is truthy (neither None nor the empty
string) and the workspace slug differs from it. -/
def skipsDataset (workspaceFilter : Option String) (slug : String) : Bool :=
  match workspaceFilter with
  | none => false
  | some w => if w = "" then false else slug != w

/-- `OpenHexaGraphQLClient._flatten_datasets` (client.py lines 102-135):
flatten the nested response into one record per file, skipping datasets that
fail the workspace filter, with `file_path` assembled from the four parts. -/
def flatten_datasets (items : List DatasetItem)
    (workspaceFilter : Option String) : List DatasetRecord :=
  items.flatMap (fun d =>
    if skipsDataset workspaceFilter d.workspaceSlug then []
    else
      d.versions.flatMap (fun ver =>
        ver.files.map (fun f =>
          { workspace := d.workspaceSlug, dataset := d.slug,
            version := ver.name, filename := f.filename,
            file_path := d.workspaceSlug ++ "/" ++ d.slug ++ "/" ++ ver.name
              ++ "/" ++ f.filename })))

/-- The two exception classes caught by `query_datasets` (client.py lines
95-100): TransportQueryError and every other exception. -/
inductive QueryError where
  | transport (msg : String)
  | other (msg : String)
  deriving Repr, DecidableEq

/-- `OpenHexaGraphQLClient.query_datasets` (client.py lines 52-100): a
successful GraphQL execution is flattened; a TransportQueryError or any other
exception is logged and swallowed, returning the empty list. -/
def query_datasets (serviceResult : Except QueryError (List DatasetItem))
    (workspaceFilter : Option String) : List DatasetRecord :=
  match serviceResult with
  | Except.ok items => flatten_datasets items workspaceFilter
  | Except.error (QueryError.transport _) => []
  | Except.error (QueryError.other _) => []

/-- A pandas DataFrame as observable here: either built from a nonempty record
list, or an empty frame carrying explicit column names. -/
inductive DataFrameModel where
  | ofRecords (records : List DatasetRecord)
  | emptyWithColumns (columns : List String)
  deriving Repr, DecidableEq

/-- `_EMPTY_SCHEMA` (functions.py line 9). -/
def EMPTY_SCHEMA : List String :=
  ["workspace", "dataset", "version", "filename", "file_path"]

/-- `openhexa_dataset_files` (functions.py lines 16-22): query the datasets
and build a DataFrame from them, falling back to the fixed five-column schema
when the record list is empty (`pd.DataFrame(datasets) if datasets else
pd.DataFrame(columns=_EMPTY_SCHEMA)`). -/
def openhexa_dataset_files (serviceResult : Except QueryError (List DatasetItem))
    (workspaceFilter : Option String) : DataFrameModel :=
  let datasets := query_datasets serviceResult workspaceFilter
  if datasets.isEmpty then DataFrameModel.emptyWithColumns EMPTY_SCHEMA
  else DataFrameModel.ofRecords datasets

lemma dictFind_dictInsert_self {α β : Type} [DecidableEq α]
    (d : List (α × β)) (k : α) (v : β) :
    dictFind (dictInsert d k v) k = some v := by
  induction d with
  | nil => simp [dictInsert, dictFind]
  | cons p rest ih =>
    obtain ⟨a, b⟩ := p
    by_cases h : a = k
    · simp [dictInsert, h, dictFind]
    · simp [dictInsert, h, dictFind, ih]

lemma dictFind_dictErase_self {α β : Type} [DecidableEq α]
    (d : List (α × β)) (k : α) :
    dictFind (dictErase d k) k = none := by
  induction d with
  | nil => simp [dictErase, dictFind]
  | cons p rest ih =>
    obtain ⟨a, b⟩ := p
    by_cases h : a = k
    · simp [dictErase, h, ih]
    · simp [dictErase, h, dictFind, ih]

lemma dictFind_cachePut_self (maxSize : Nat) (now : Int) (c : DownloadCache)
    (k : String) (v : Option String) :
    dictFind (cachePut maxSize now c k v) k = some ⟨v, now⟩ := by
  unfold cachePut putInsertStep
  exact dictFind_dictInsert_self _ _ _

lemma dictKeys_dictInsert_fresh {α β : Type} [DecidableEq α]
    (d : List (α × β)) (k : α) (v : β) (h : k ∉ dictKeys d) :
    dictKeys (dictInsert d k v) = dictKeys d ++ [k] := by
  induction d with
  | nil => simp [dictInsert, dictKeys]
  | cons p rest ih =>
    obtain ⟨a, b⟩ := p
    have hak : ¬ a = k := by
      intro hc
      exact h (by simp [dictKeys, hc])
    have h2 : k ∉ dictKeys rest := by
      intro hc
      exact h (by simp [dictKeys] at hc ⊢; exact Or.inr hc)
    rw [dictInsert, if_neg hak]
    show a :: dictKeys (dictInsert rest k v) = (a :: dictKeys rest) ++ [k]
    rw [ih h2]
    rfl

lemma dictKeys_length {α β : Type} (d : List (α × β)) :
    (dictKeys d).length = d.length := by
  simp [dictKeys]

lemma dictKeys_tail {α β : Type} (d : List (α × β)) :
    dictKeys d.tail = (dictKeys d).tail := by
  cases d <;> rfl

lemma dictKeys_cachePut_fresh (maxSize : Nat) (now : Int) (c : DownloadCache)
    (k : String) (v : Option String) (h : k ∉ dictKeys c) :
    dictKeys (cachePut maxSize now c k v)
      = (if maxSize ≤ c.length then (dictKeys c).tail else dictKeys c) ++ [k] := by
  unfold cachePut putInsertStep putEvictStep
  by_cases hle : maxSize ≤ c.length
  · have htl : k ∉ dictKeys c.tail := by
      rw [dictKeys_tail]
      exact fun hc => h (List.mem_of_mem_tail hc)
    rw [if_pos hle, if_pos hle, dictKeys_dictInsert_fresh _ _ _ htl, dictKeys_tail]
  · rw [if_neg hle, if_neg hle, dictKeys_dictInsert_fresh _ _ _ h]

lemma insertAll_keys (maxSize : Nat) (now : Int) (url : Option String)
    (hmax : 1 ≤ maxSize) (ks : List String) :
    ∀ (c : DownloadCache), c.length ≤ maxSize → (dictKeys c ++ ks).Nodup →
      dictKeys (insertAll maxSize now url ks c)
        = (dictKeys c ++ ks).drop ((c.length + ks.length) - maxSize) := by
  induction ks with
  | nil =>
    intro c hlen _
    have h0 : c.length + List.length ([] : List String) - maxSize = 0 := by
      simp only [List.length_nil, Nat.add_zero]
      omega
    rw [insertAll, h0, List.drop_zero, List.append_nil]
  | cons k ks ih =>
    intro c hlen hnd
    have hknotin : k ∉ dictKeys c := by
      rw [List.nodup_append] at hnd
      exact fun hc => hnd.2.2 hc (List.mem_cons_self k ks)
    rw [insertAll]
    by_cases hfull : maxSize ≤ c.length
    · -- the cache is exactly full: the oldest entry is evicted first
      have hceq : c.length = maxSize := le_antisymm hlen hfull
      have hkeys : dictKeys (cachePut maxSize now c k url) = (dictKeys c).tail ++ [k] := by
        rw [dictKeys_cachePut_fresh _ _ _ _ _ hknotin, if_pos hfull]
      have hlen' : (cachePut maxSize now c k url).length = maxSize := by
        have hh := dictKeys_length (cachePut maxSize now c k url)
        rw [hkeys] at hh
        simp only [List.length_append, List.length_tail, dictKeys_length,
          List.length_singleton] at hh
        omega
      have hsub : List.Sublist ((dictKeys c).tail ++ (k :: ks)) (dictKeys c ++ (k :: ks)) :=
        (List.tail_sublist (dictKeys c)).append_right (k :: ks)
      have hnd' : (dictKeys (cachePut maxSize now c k url) ++ ks).Nodup := by
        rw [hkeys, List.append_assoc, List.singleton_append]
        exact hsub.nodup hnd
      have hih := ih (cachePut maxSize now c k url) (le_of_eq hlen') hnd'
      rw [hih, hkeys, hlen']
      have hKne : dictKeys c ≠ [] := by
        intro hc
        have hh := dictKeys_length c
        rw [hc] at hh
        simp only [List.length_nil] at hh
        omega
      obtain ⟨a, t, hK⟩ := List.exists_cons_of_ne_nil hKne
      rw [hK]
      simp only [List.tail_cons, List.append_assoc, List.singleton_append,
        List.cons_append, List.length_cons]
      have h1 : maxSize + ks.length - maxSize = ks.length := by omega
      have h2 : maxSize + (ks.length + 1) - maxSize = ks.length + 1 := by omega
      rw [h1, hceq, h2, List.drop_succ_cons, List.nil_append]
    · -- still below capacity: plain append, nothing evicted
      have hkeys : dictKeys (cachePut maxSize now c k url) = dictKeys c ++ [k] := by
        rw [dictKeys_cachePut_fresh _ _ _ _ _ hknotin, if_neg hfull]
      have hlen' : (cachePut maxSize now c k url).length = c.length + 1 := by
        have hh := dictKeys_length (cachePut maxSize now c k url)
        rw [hkeys] at hh
        simp only [List.length_append, dictKeys_length, List.length_singleton] at hh
        omega
      have hnd' : (dictKeys (cachePut maxSize now c k url) ++ ks).Nodup := by
        rw [hkeys, List.append_assoc, List.singleton_append]
        exact hnd
      have hih := ih (cachePut maxSize now c k url) (by omega) hnd'
      rw [hih, hkeys, hlen']
      simp only [List.append_assoc, List.singleton_append, List.length_cons]
      have h3 : c.length + 1 + ks.length = c.length + (ks.length + 1) := by omega
      rw [h3]

lemma dictKeys_cons {α β : Type} (a : α) (b : β) (rest : List (α × β)) :
    dictKeys ((a, b) :: rest) = a :: dictKeys rest := rfl

lemma mem_keys_dictInsert {α β : Type} [DecidableEq α]
    (d : List (α × β)) (k x : α) (v : β)
    (hx : x ∈ dictKeys (dictInsert d k v)) : x ∈ dictKeys d ∨ x = k := by
  induction d with
  | nil =>
    rw [dictInsert, dictKeys_cons] at hx
    rcases List.mem_cons.mp hx with h | h
    · exact Or.inr h
    · exact absurd h (by simp [dictKeys])
  | cons p rest ih =>
    obtain ⟨a, b⟩ := p
    rw [dictKeys_cons]
    by_cases h : a = k
    · rw [dictInsert, if_pos h, dictKeys_cons] at hx
      rcases List.mem_cons.mp hx with h1 | h1
      · exact Or.inr h1
      · exact Or.inl (List.mem_cons_of_mem a h1)
    · rw [dictInsert, if_neg h, dictKeys_cons] at hx
      rcases List.mem_cons.mp hx with h1 | h1
      · exact Or.inl (List.mem_cons.mpr (Or.inl h1))
      · rcases ih h1 with h2 | h2
        · exact Or.inl (List.mem_cons_of_mem a h2)
        · exact Or.inr h2

lemma mem_keys_dictErase {α β : Type} [DecidableEq α]
    (d : List (α × β)) (k x : α)
    (hx : x ∈ dictKeys (dictErase d k)) : x ∈ dictKeys d := by
  induction d with
  | nil => simpa [dictErase] using hx
  | cons p rest ih =>
    obtain ⟨a, b⟩ := p
    rw [dictKeys_cons]
    by_cases h : a = k
    · rw [dictErase, if_pos h] at hx
      exact List.mem_cons_of_mem a (ih hx)
    · rw [dictErase, if_neg h, dictKeys_cons] at hx
      rcases List.mem_cons.mp hx with h1 | h1
      · exact List.mem_cons.mpr (Or.inl h1)
      · exact List.mem_cons_of_mem a (ih h1)

lemma mem_keys_cachePut (maxSize : Nat) (now : Int) (c : DownloadCache)
    (k x : String) (v : Option String)
    (hx : x ∈ dictKeys (cachePut maxSize now c k v)) :
    x ∈ dictKeys c ∨ x = k := by
  unfold cachePut putInsertStep putEvictStep at hx
  by_cases h : maxSize ≤ c.length
  · rw [if_pos h] at hx
    rcases mem_keys_dictInsert _ _ _ _ hx with h1 | h1
    · rw [dictKeys_tail] at h1
      exact Or.inl (List.mem_of_mem_tail h1)
    · exact Or.inr h1
  · rw [if_neg h] at hx
    exact mem_keys_dictInsert _ _ _ _ hx

lemma dictFind_eq_none_of_not_mem {α β : Type} [DecidableEq α]
    (d : List (α × β)) (k : α) (h : k ∉ dictKeys d) : dictFind d k = none := by
  induction d with
  | nil => rfl
  | cons p rest ih =>
    obtain ⟨a, b⟩ := p
    have hak : ¬ a = k := by
      intro hc
      exact h (by simp [dictKeys, hc])
    rw [dictFind, if_neg hak]
    exact ih (fun hc => h (by simp [dictKeys] at hc ⊢; exact Or.inr hc))

lemma resolveMiss_keeps_valid_keys (maxSize : Nat) (now : Int)
    (service : String → ServiceResult) (c : DownloadCache) (p : String)
    (lookups : Nat)
    (hc : ∀ k ∈ dictKeys c, ¬ (splitSlash k).length < 4) :
    ∀ k ∈ dictKeys (resolveMiss maxSize now service c p lookups).cache,
      ¬ (splitSlash k).length < 4 := by
  unfold resolveMiss
  rcases hp : parseFilePath p with _ | tuple
  · simpa using hc
  · have hvalid : ¬ (splitSlash p).length < 4 := by
      unfold parseFilePath at hp
      by_cases h : (splitSlash p).length < 4
      · rw [if_pos h] at hp
        exact absurd hp (by simp)
      · exact h
    rcases hs : service p with url | msg | msg
    · intro k hk
      rcases mem_keys_cachePut _ _ _ _ _ _ hk with h1 | h1
      · exact hc k h1
      · rw [h1]
        exact hvalid
    · simpa using hc
    · simpa using hc

lemma resolver_keeps_valid_keys (ttl : Int) (maxSize : Nat) (now : Int)
    (service : String → ServiceResult) (c : DownloadCache) (p : String)
    (hc : ∀ k ∈ dictKeys c, ¬ (splitSlash k).length < 4) :
    ∀ k ∈ dictKeys (query_file_download_url ttl maxSize now service c p).cache,
      ¬ (splitSlash k).length < 4 := by
  rcases hf : dictFind c p with _ | e
  · simp only [query_file_download_url, hf]
    exact resolveMiss_keeps_valid_keys _ _ _ _ _ _ hc
  · by_cases hfresh : now - e.createdAt < ttl
    · simp only [query_file_download_url, hf, if_pos hfresh]
      simpa using hc
    · simp only [query_file_download_url, hf, if_neg hfresh]
      exact resolveMiss_keeps_valid_keys _ _ _ _ _ _
        (fun k hk => hc k (mem_keys_dictErase _ _ _ hk))

lemma createNewConnection_factoryCalls (now : Int) (cr : Except String Nat)
    (ir : Except String Unit) (p : ConnectionPool) (key : String × String)
    (cl : List Nat) :
    (createNewConnection now cr ir p key cl).factoryCalls = 1 := by
  unfold createNewConnection
  cases cr with
  | error msg => rfl
  | ok cid =>
    cases ir with
    | error msg => rfl
    | ok u => rfl

lemma createNewConnection_closedConns (now : Int) (cr : Except String Nat)
    (ir : Except String Unit) (p : ConnectionPool) (key : String × String)
    (cl : List Nat) :
    (createNewConnection now cr ir p key cl).closedConns = cl := by
  unfold createNewConnection
  cases cr with
  | error msg => rfl
  | ok cid =>
    cases ir with
    | error msg => rfl
    | ok u => rfl

lemma dictFind_dictErase_ne {α β : Type} [DecidableEq α]
    (d : List (α × β)) (k k2 : α) (h : k2 ≠ k) :
    dictFind (dictErase d k) k2 = dictFind d k2 := by
  induction d with
  | nil => rfl
  | cons p rest ih =>
    obtain ⟨a, b⟩ := p
    by_cases hak : a = k
    · have hak2 : ¬ a = k2 := fun hc => h (hc ▸ hak)
      rw [dictErase, if_pos hak, ih, dictFind, if_neg hak2]
    · by_cases hk2 : a = k2
      · rw [dictErase, if_neg hak, dictFind, if_pos hk2, dictFind, if_pos hk2]
      · rw [dictErase, if_neg hak, dictFind, if_neg hk2, dictFind, if_neg hk2, ih]

lemma createNewConnection_result_error (now : Int) (cr : Except String Nat)
    (ir : Except String Unit) (p : ConnectionPool) (key : String × String)
    (cl : List Nat) (msg : String)
    (h : cr = Except.error msg
      ∨ ∃ cid, cr = Except.ok cid ∧ ir = Except.error msg) :
    (createNewConnection now cr ir p key cl).result = Except.error msg
    ∧ (createNewConnection now cr ir p key cl).pool = p := by
  rcases h with h | ⟨cid, hcr, hir⟩
  · rw [h]
    exact ⟨rfl, rfl⟩
  · rw [hcr, hir]
    exact ⟨rfl, rfl⟩

lemma acquire_fail_aux (ttl now : Int) (probe : Nat → Bool)
    (cr : Except String Nat) (ir : Except String Unit)
    (pool : ConnectionPool) (key : String × String) (msg : String)
    (hreach : dictFind pool key = none
      ∨ ∃ e, dictFind pool key = some e
          ∧ (ttl < now - e.createdAt ∨ probe e.connId = false))
    (hfail : cr = Except.error msg
      ∨ ∃ cid, cr = Except.ok cid ∧ ir = Except.error msg) :
    (get_or_create_connection ttl now probe cr ir pool key).result
      = Except.error msg
    ∧ dictFind (get_or_create_connection ttl now probe cr ir pool key).pool key
      = none
    ∧ (∀ k2, k2 ≠ key →
        dictFind (get_or_create_connection ttl now probe cr ir pool key).pool k2
          = dictFind pool k2)
    ∧ (dictFind pool key = none →
        (get_or_create_connection ttl now probe cr ir pool key).pool = pool) := by
  rcases hreach with hmiss | ⟨e, hfind, hforce⟩
  · have hred : get_or_create_connection ttl now probe cr ir pool key
        = createNewConnection now cr ir pool key [] := by
      simp only [get_or_create_connection, hmiss]
    have hc := createNewConnection_result_error now cr ir pool key [] msg hfail
    rw [hred]
    refine ⟨hc.1, ?_, ?_, fun _ => hc.2⟩
    · rw [hc.2]
      exact hmiss
    · intro k2 _
      rw [hc.2]
  · have hred : ∃ cl, get_or_create_connection ttl now probe cr ir pool key
        = createNewConnection now cr ir (dictErase pool key) key cl := by
      by_cases hexp : ttl < now - e.createdAt
      · exact ⟨[e.connId], by simp only [get_or_create_connection, hfind, if_pos hexp]⟩
      · have hdead : ¬ (probe e.connId = true) := by
          rcases hforce with h | h
          · exact absurd h hexp
          · simp [h]
        exact ⟨[], by simp only [get_or_create_connection, hfind, if_neg hexp,
          if_neg hdead]⟩
    obtain ⟨cl, hred⟩ := hred
    have hc := createNewConnection_result_error now cr ir (dictErase pool key) key
      cl msg hfail
    rw [hred]
    refine ⟨hc.1, ?_, ?_, ?_⟩
    · rw [hc.2]
      exact dictFind_dictErase_self _ _
    · intro k2 hk2
      rw [hc.2]
      exact dictFind_dictErase_ne _ _ _ hk2
    · intro habs
      rw [habs] at hfind
      cases hfind

lemma acquireSeq_reuse (ttl : Int) (probe : Nat → Bool) (cr : Except String Nat)
    (ir : Except String Unit) (key : String × String) (cid : Nat) (t0 : Int) :
    ∀ (ts : List Int) (pool : ConnectionPool),
      dictFind pool key = some ⟨cid, t0⟩ → probe cid = true →
      (∀ t ∈ ts, t - t0 ≤ ttl) →
      acquireSeq ttl probe cr ir key ts pool
        = (0, ts.map (fun _ => Except.ok cid), pool) := by
  intro ts
  induction ts with
  | nil =>
    intro pool _ _ _
    rfl
  | cons t ts ih =>
    intro pool hfind hpr hts
    have hexp : ¬ (ttl < t - t0) := not_lt.mpr (hts t (List.mem_cons_self t ts))
    have ha : get_or_create_connection ttl t probe cr ir pool key
        = { result := Except.ok cid, pool := pool, factoryCalls := 0,
            closedConns := [] } := by
      simp only [get_or_create_connection, hfind, if_neg hexp, if_pos hpr]
    simp only [acquireSeq, ha]
    rw [ih pool hfind hpr (fun t2 ht2 => hts t2 (List.mem_cons_of_mem _ ht2))]
    simp [List.map_cons]

/-- C2: after `put(k, v)` at time `t`, a get at any `t'` with `t' - t < TTL`
returns `v` as a hit with the cache untouched; a get at any `t'` with
`t' - t ≥ TTL` reports a miss, removes the entry as part of that call, and the
key is absent from the resulting cache, so any later get also misses and leaves
the cache unchanged (expiry is monotonic; a stale entry is never served). -/
theorem cache_ttl_get_put (maxSize : Nat) (ttl t t' t2 : Int) (c : DownloadCache)
    (k : String) (v : Option String) :
    (t' - t < ttl → cacheGet ttl t' (cachePut maxSize t c k v) k
      = (some v, cachePut maxSize t c k v))
    ∧ (ttl ≤ t' - t →
        (cacheGet ttl t' (cachePut maxSize t c k v) k).1 = none
        ∧ dictFind (cacheGet ttl t' (cachePut maxSize t c k v) k).2 k = none
        ∧ cacheGet ttl t2 (cacheGet ttl t' (cachePut maxSize t c k v) k).2 k
          = (none, (cacheGet ttl t' (cachePut maxSize t c k v) k).2)) := by
  have hfind := dictFind_cachePut_self maxSize t c k v
  constructor
  · intro hlt
    simp [cacheGet, hfind, hlt]
  · intro hge
    have hnot : ¬ (t' - t < ttl) := not_lt.mpr hge
    have hget : cacheGet ttl t' (cachePut maxSize t c k v) k
        = (none, dictErase (cachePut maxSize t c k v) k) := by
      simp [cacheGet, hfind, hnot]
    refine ⟨by rw [hget], ?_, ?_⟩
    · rw [hget]
      exact dictFind_dictErase_self _ _
    · rw [hget]
      simp [cacheGet, dictFind_dictErase_self]

theorem cache_ttl_get_put_witness :
    cacheGet 540 100 (cachePut 2 0 [] "k" (some "u")) "k"
      = (some (some "u"), cachePut 2 0 [] "k" (some "u"))
    ∧ (cacheGet 540 600 (cachePut 2 0 [] "k" (some "u")) "k").1 = none :=
  ⟨(cache_ttl_get_put 2 540 0 100 0 [] "k" (some "u")).1 (by decide),
   ((cache_ttl_get_put 2 540 0 600 0 [] "k" (some "u")).2 (by decide)).1⟩

/-- C3: inserting `maxEntries + 1` distinct keys into an empty cache leaves
exactly `maxEntries` keys present, and the evicted key is the single
oldest-inserted one, so the surviving keys are the insertion sequence without
its first element (capacity 2: insert A, B, C leaves B and C, A absent);
eviction follows insertion order, and a read of a fresh entry leaves the cache
(and hence the insertion order) completely unchanged. -/
theorem cache_capacity_insertion_order_eviction (maxSize : Nat) (now ttl : Int)
    (url : Option String) (ks : List String)
    (hmax : 1 ≤ maxSize) (hnd : ks.Nodup) (hlen : ks.length = maxSize + 1) :
    dictKeys (insertAll maxSize now url ks []) = ks.drop 1
    ∧ (insertAll maxSize now url ks []).length = maxSize
    ∧ ∀ (c : DownloadCache) (k : String) (e : CacheEntry),
        dictFind c k = some e → now - e.createdAt < ttl →
        (cacheGet ttl now c k).2 = c := by
  have hnd0 : (dictKeys ([] : DownloadCache) ++ ks).Nodup := by
    simpa [dictKeys] using hnd
  have hkeys := insertAll_keys maxSize now url hmax ks [] (by simp) hnd0
  have harith : List.length ([] : DownloadCache) + ks.length - maxSize = 1 := by
    simp only [List.length_nil, Nat.zero_add, hlen]
    omega
  rw [harith] at hkeys
  have hkeys' : dictKeys (insertAll maxSize now url ks []) = ks.drop 1 := by
    rw [hkeys]
    simp [dictKeys]
  refine ⟨hkeys', ?_, ?_⟩
  · have hl := dictKeys_length (insertAll maxSize now url ks [])
    rw [hkeys'] at hl
    rw [← hl]
    simp only [List.length_drop, hlen]
    omega
  · intro c k e hfind hfresh
    simp [cacheGet, hfind, hfresh]

theorem cache_capacity_insertion_order_eviction_witness :
    dictKeys (insertAll 2 0 (some "u") ["A", "B", "C"] []) = ["B", "C"]
    ∧ "A" ∉ dictKeys (insertAll 2 0 (some "u") ["A", "B", "C"] []) := by
  have h := cache_capacity_insertion_order_eviction 2 0 540 (some "u")
    ["A", "B", "C"] (by decide) (by decide) (by decide)
  exact ⟨h.1, by rw [h.1]; decide⟩

/-- C5 is refuted as stated: for the malformed path below the code still
performs the cache membership test of client.py line 146 (one cache lookup)
before raising the ValueError, although it performs no network access. -/
theorem path_validation_cache_checked_counterexample :
    (query_file_download_url 540 1000 0 (fun _ => ServiceResult.ok none) []
      "onlytwo/parts").cacheLookups = 1
    ∧ (query_file_download_url 540 1000 0 (fun _ => ServiceResult.ok none) []
      "onlytwo/parts").result = Except.error "ValueError: invalid file path format"
    ∧ (query_file_download_url 540 1000 0 (fun _ => ServiceResult.ok none) []
      "onlytwo/parts").networkCalls = 0 :=
  ⟨rfl, rfl, rfl⟩

/-- C5 (amended): a file path with fewer than four slash-delimited segments
makes `query_file_download_url` report the ValueError synchronously to the
caller, with no network access and no cache mutation; the cache membership
test of client.py line 146 does run first (exactly one lookup), but it can
never return a cached value for such a path because every key the resolver
ever stores has at least four segments (last conjunct). -/
theorem path_validation_no_network (ttl : Int) (maxSize : Nat) (now : Int)
    (service : String → ServiceResult) (cache : DownloadCache) (p : String)
    (hinvalid : (splitSlash p).length < 4)
    (hkeys : ∀ k ∈ dictKeys cache, ¬ (splitSlash k).length < 4) :
    (query_file_download_url ttl maxSize now service cache p).result
      = Except.error "ValueError: invalid file path format"
    ∧ (query_file_download_url ttl maxSize now service cache p).networkCalls = 0
    ∧ (query_file_download_url ttl maxSize now service cache p).cache = cache
    ∧ (query_file_download_url ttl maxSize now service cache p).cacheLookups = 1
    ∧ ∀ (c2 : DownloadCache) (q : String),
        (∀ k ∈ dictKeys c2, ¬ (splitSlash k).length < 4) →
        ∀ k ∈ dictKeys (query_file_download_url ttl maxSize now service c2 q).cache,
          ¬ (splitSlash k).length < 4 := by
  have hmiss : dictFind cache p = none :=
    dictFind_eq_none_of_not_mem _ _ (fun hm => hkeys p hm hinvalid)
  have hparse : parseFilePath p = none := by
    unfold parseFilePath
    rw [if_pos hinvalid]
  refine ⟨?_, ?_, ?_, ?_, fun c2 q h2 => resolver_keeps_valid_keys _ _ _ _ _ _ h2⟩
  all_goals simp only [query_file_download_url, hmiss, resolveMiss, hparse]

theorem path_validation_no_network_witness :
    (query_file_download_url 540 1000 0 (fun _ => ServiceResult.ok none) []
      "onlytwo/parts").networkCalls = 0
    ∧ (query_file_download_url 540 1000 0 (fun _ => ServiceResult.ok none) []
      "onlytwo/parts").cache = [] :=
  ⟨(path_validation_no_network 540 1000 0 (fun _ => ServiceResult.ok none) []
      "onlytwo/parts" (by decide) (fun k hk => absurd hk (List.not_mem_nil k))).2.1,
   (path_validation_no_network 540 1000 0 (fun _ => ServiceResult.ok none) []
      "onlytwo/parts" (by decide) (fun k hk => absurd hk (List.not_mem_nil k))).2.2.1⟩

/-- C4: on a cache miss with a valid path, a successful service call has its
outcome - the url or the explicit None (not-found) marker - stored in the
cache with the current timestamp and returned, so a second resolve of the same
path within the TTL is served from the cache with zero network calls; a failed
service call (transport or unexpected error) returns the absent value, leaves
the cache completely unchanged, and a later call for the same path performs
the network call again. -/
theorem resolver_miss_caching (ttl : Int) (maxSize : Nat) (t t2 : Int)
    (service : String → ServiceResult) (cache : DownloadCache) (p : String)
    (hmiss : dictFind cache p = none)
    (hvalid : ¬ (splitSlash p).length < 4) :
    (∀ url, service p = ServiceResult.ok url →
      (query_file_download_url ttl maxSize t service cache p).result = Except.ok url
      ∧ (query_file_download_url ttl maxSize t service cache p).cache
          = cachePut maxSize t cache p url
      ∧ (query_file_download_url ttl maxSize t service cache p).networkCalls = 1
      ∧ (t2 - t < ttl →
          query_file_download_url ttl maxSize t2 service
            (query_file_download_url ttl maxSize t service cache p).cache p
          = { result := Except.ok url,
              cache := (query_file_download_url ttl maxSize t service cache p).cache,
              networkCalls := 0, cacheLookups := 1 }))
    ∧ (∀ msg, (service p = ServiceResult.transportError msg
          ∨ service p = ServiceResult.otherError msg) →
      (query_file_download_url ttl maxSize t service cache p).result = Except.ok none
      ∧ (query_file_download_url ttl maxSize t service cache p).cache = cache
      ∧ (query_file_download_url ttl maxSize t service cache p).networkCalls = 1
      ∧ (query_file_download_url ttl maxSize t2 service cache p).networkCalls = 1) := by
  have hparse : parseFilePath p
      = some ((splitSlash p).getD 0 "", (splitSlash p).getD 1 "",
        (splitSlash p).getD 2 "", joinSlash ((splitSlash p).drop 3)) := by
    unfold parseFilePath
    rw [if_neg hvalid]
  constructor
  · intro url hsvc
    have hcall : query_file_download_url ttl maxSize t service cache p
        = { result := Except.ok url, cache := cachePut maxSize t cache p url,
            networkCalls := 1, cacheLookups := 1 } := by
      simp only [query_file_download_url, hmiss, resolveMiss, hparse, hsvc]
    refine ⟨by rw [hcall], by rw [hcall], by rw [hcall], ?_⟩
    intro hfresh
    rw [hcall]
    simp only [query_file_download_url, dictFind_cachePut_self, if_pos hfresh]
  · intro msg hsvc
    have hcall : query_file_download_url ttl maxSize t service cache p
        = { result := Except.ok none, cache := cache,
            networkCalls := 1, cacheLookups := 1 } := by
      rcases hsvc with h | h <;>
        simp only [query_file_download_url, hmiss, resolveMiss, hparse, h]
    have hcall2 : (query_file_download_url ttl maxSize t2 service cache p).networkCalls
        = 1 := by
      rcases hsvc with h | h <;>
        simp only [query_file_download_url, hmiss, resolveMiss, hparse, h]
    exact ⟨by rw [hcall], by rw [hcall], by rw [hcall], hcall2⟩

theorem resolver_miss_caching_witness :
    (query_file_download_url 540 1000 0 (fun _ => ServiceResult.ok (some "URL")) []
      "w/d/v/f").result = Except.ok (some "URL")
    ∧ (query_file_download_url 540 1000 10 (fun _ => ServiceResult.ok (some "URL"))
        (query_file_download_url 540 1000 0 (fun _ => ServiceResult.ok (some "URL")) []
          "w/d/v/f").cache "w/d/v/f").networkCalls = 0 := by
  have h := (resolver_miss_caching 540 1000 0 10
    (fun _ => ServiceResult.ok (some "URL")) [] "w/d/v/f" rfl (by decide)).1
    (some "URL") rfl
  exact ⟨h.1, by rw [h.2.2.2 (by decide)]⟩

/-- C1 is refuted as stated: with TTL 10, an entry created at time 0 and
acquired again at time exactly 10 is reused (same handle, no factory call)
although its age is not strictly less than the TTL — the code only recreates
when `age > TTL` (dialect.py line 58). -/
theorem pool_reuse_strict_ttl_counterexample :
    (get_or_create_connection 10 10 (fun _ => true) (Except.ok 99) (Except.ok ())
      [(("u", "d"), ⟨7, 0⟩)] ("u", "d")).result = Except.ok 7
    ∧ (get_or_create_connection 10 10 (fun _ => true) (Except.ok 99) (Except.ok ())
      [(("u", "d"), ⟨7, 0⟩)] ("u", "d")).factoryCalls = 0
    ∧ ¬ ((10 : Int) - 0 < 10) :=
  ⟨rfl, rfl, by decide⟩

/-- C1 (amended): an acquire returns the existing pooled entry, without
invoking the factory and without touching the pool, iff the entry is present,
its age is at most the TTL (`age ≤ TTL`, i.e. not `age > TTL`; the spec's
strict `age < TTL` is off by the boundary case) and the liveness probe
succeeds; two sequential acquires for an absent key within the TTL with a
passing probe invoke the factory exactly once and return the same underlying
connection both times; and an expired age or a failed probe forces removal
and recreation under the same key. -/
theorem pool_reuse_ttl_le_probe (ttl : Int) (probe : Nat → Bool)
    (connectRes : Except String Nat) (initRes : Except String Unit)
    (pool : ConnectionPool) (key : String × String) :
    (∀ (now : Int) (e : PoolEntry), dictFind pool key = some e →
      (((get_or_create_connection ttl now probe connectRes initRes pool key).result
            = Except.ok e.connId
          ∧ (get_or_create_connection ttl now probe connectRes initRes pool
              key).factoryCalls = 0
          ∧ (get_or_create_connection ttl now probe connectRes initRes pool
              key).pool = pool)
        ↔ (now - e.createdAt ≤ ttl ∧ probe e.connId = true)))
    ∧ (∀ (t1 t2 : Int) (cid : Nat) (cr2 : Except String Nat) (ir2 : Except String Unit),
        dictFind pool key = none → connectRes = Except.ok cid →
        initRes = Except.ok () → probe cid = true → t2 - t1 ≤ ttl →
        (get_or_create_connection ttl t1 probe connectRes initRes pool key).result
            = Except.ok cid
        ∧ (get_or_create_connection ttl t1 probe connectRes initRes pool
            key).factoryCalls = 1
        ∧ get_or_create_connection ttl t2 probe cr2 ir2
            (get_or_create_connection ttl t1 probe connectRes initRes pool key).pool
            key
          = { result := Except.ok cid,
              pool := (get_or_create_connection ttl t1 probe connectRes initRes pool
                key).pool,
              factoryCalls := 0, closedConns := [] })
    ∧ (∀ (now : Int) (e : PoolEntry) (cid2 : Nat),
        dictFind pool key = some e →
        (ttl < now - e.createdAt ∨ probe e.connId = false) →
        connectRes = Except.ok cid2 → initRes = Except.ok () →
        (get_or_create_connection ttl now probe connectRes initRes pool key).result
            = Except.ok cid2
        ∧ (get_or_create_connection ttl now probe connectRes initRes pool
            key).factoryCalls = 1
        ∧ dictFind (get_or_create_connection ttl now probe connectRes initRes pool
            key).pool key = some ⟨cid2, now⟩) := by
  refine ⟨?_, ?_, ?_⟩
  · intro now e hfind
    constructor
    · intro h
      by_cases hexp : ttl < now - e.createdAt
      · exfalso
        have hfc : (get_or_create_connection ttl now probe connectRes initRes pool
            key).factoryCalls = 1 := by
          simp only [get_or_create_connection, hfind, if_pos hexp]
          exact createNewConnection_factoryCalls _ _ _ _ _ _
        rw [h.2.1] at hfc
        exact Nat.zero_ne_one hfc
      · by_cases hpr : probe e.connId = true
        · exact ⟨le_of_not_lt hexp, hpr⟩
        · exfalso
          have hfc : (get_or_create_connection ttl now probe connectRes initRes pool
              key).factoryCalls = 1 := by
            simp only [get_or_create_connection, hfind, if_neg hexp, if_neg hpr]
            exact createNewConnection_factoryCalls _ _ _ _ _ _
          rw [h.2.1] at hfc
          exact Nat.zero_ne_one hfc
    · intro h
      have hexp : ¬ (ttl < now - e.createdAt) := not_lt.mpr h.1
      simp only [get_or_create_connection, hfind, if_neg hexp, if_pos h.2,
        and_self]
  · intro t1 t2 cid cr2 ir2 hmiss hcr hir hpr hfresh
    have h1 : get_or_create_connection ttl t1 probe connectRes initRes pool key
        = { result := Except.ok cid, pool := dictInsert pool key ⟨cid, t1⟩,
            factoryCalls := 1, closedConns := [] } := by
      simp only [get_or_create_connection, hmiss, hcr, hir, createNewConnection]
    have hfind2 : dictFind (dictInsert pool key (⟨cid, t1⟩ : PoolEntry)) key
        = some ⟨cid, t1⟩ := dictFind_dictInsert_self _ _ _
    have hexp : ¬ (ttl < t2 - t1) := not_lt.mpr hfresh
    refine ⟨by rw [h1], by rw [h1], ?_⟩
    rw [h1]
    simp only [get_or_create_connection, hfind2, if_neg hexp, if_pos hpr]
  · intro now e cid2 hfind hforce hcr hir
    by_cases hexp : ttl < now - e.createdAt
    · have hred : get_or_create_connection ttl now probe connectRes initRes pool key
          = { result := Except.ok cid2,
              pool := dictInsert (dictErase pool key) key ⟨cid2, now⟩,
              factoryCalls := 1, closedConns := [e.connId] } := by
        simp only [get_or_create_connection, hfind, if_pos hexp, hcr, hir,
          createNewConnection]
      exact ⟨by rw [hred], by rw [hred],
        by rw [hred]; exact dictFind_dictInsert_self _ _ _⟩
    · have hdead : ¬ (probe e.connId = true) := by
        rcases hforce with h | h
        · exact absurd h hexp
        · simp [h]
      have hred : get_or_create_connection ttl now probe connectRes initRes pool key
          = { result := Except.ok cid2,
              pool := dictInsert (dictErase pool key) key ⟨cid2, now⟩,
              factoryCalls := 1, closedConns := [] } := by
        simp only [get_or_create_connection, hfind, if_neg hexp, if_neg hdead, hcr,
          hir, createNewConnection]
      exact ⟨by rw [hred], by rw [hred],
        by rw [hred]; exact dictFind_dictInsert_self _ _ _⟩

theorem pool_reuse_ttl_le_probe_witness :
    (get_or_create_connection 3600 0 (fun _ => true) (Except.ok 5) (Except.ok ())
      [] ("u", "d")).result = Except.ok 5
    ∧ (get_or_create_connection 3600 100 (fun _ => true) (Except.ok 99)
        (Except.ok ())
        (get_or_create_connection 3600 0 (fun _ => true) (Except.ok 5)
          (Except.ok ()) [] ("u", "d")).pool ("u", "d")).result = Except.ok 5 := by
  have h := (pool_reuse_ttl_le_probe 3600 (fun _ => true) (Except.ok 5)
    (Except.ok ()) [] ("u", "d")).2.1 0 100 5 (Except.ok 99) (Except.ok ())
    rfl rfl rfl rfl (by decide)
  exact ⟨h.1, by rw [h.2.2]⟩

/-- C6: calling `close()` on a returned pooled-connection wrapper only sets
the wrapper's local closed flag; the wrapped handle, the pool and the set of
really-closed handles are untouched, and a subsequent acquire for the same key
(entry still fresh, probe passing) returns the very same underlying connection
without invoking the factory. -/
theorem wrapper_close_inert (w : PooledConnectionWrapper) (s : PoolState)
    (ttl now t0 : Int) (probe : Nat → Bool)
    (cr : Except String Nat) (ir : Except String Unit)
    (hfind : dictFind s.pool w.poolKey = some ⟨w.conn, t0⟩)
    (hfresh : now - t0 ≤ ttl) (hprobe : probe w.conn = true) :
    (wrapperClose w s).1.closed = true
    ∧ (wrapperClose w s).1.conn = w.conn
    ∧ (wrapperClose w s).2 = s
    ∧ get_or_create_connection ttl now probe cr ir (wrapperClose w s).2.pool
        w.poolKey
      = { result := Except.ok w.conn, pool := s.pool,
          factoryCalls := 0, closedConns := [] } := by
  refine ⟨rfl, rfl, rfl, ?_⟩
  have hexp : ¬ (ttl < now - t0) := not_lt.mpr hfresh
  show get_or_create_connection ttl now probe cr ir s.pool w.poolKey = _
  simp only [get_or_create_connection, hfind, if_neg hexp, if_pos hprobe]

theorem wrapper_close_inert_witness :
    (wrapperClose ⟨7, ("u", "d"), false⟩ ⟨[(("u", "d"), ⟨7, 0⟩)], []⟩).1.closed
      = true
    ∧ get_or_create_connection 3600 100 (fun _ => true) (Except.ok 99)
        (Except.ok ())
        (wrapperClose ⟨7, ("u", "d"), false⟩ ⟨[(("u", "d"), ⟨7, 0⟩)], []⟩).2.pool
        ("u", "d")
      = { result := Except.ok 7, pool := [(("u", "d"), ⟨7, 0⟩)],
          factoryCalls := 0, closedConns := [] } := by
  have h := wrapper_close_inert ⟨7, ("u", "d"), false⟩ ⟨[(("u", "d"), ⟨7, 0⟩)], []⟩
    3600 100 0 (fun _ => true) (Except.ok 99) (Except.ok ()) rfl (by decide) rfl
  exact ⟨h.1, h.2.2.2⟩

/-- C7 is refuted as stated: when the liveness probe fails, the pool entry is
removed and replaced, but `close()` is never invoked on the dead handle
(dialect.py lines 71-73 only delete the entry; `conn.close()` appears only in
the TTL-expiry branch, lines 60-63) - so an eviction caused by a failed probe
does not destroy the underlying handle. -/
theorem probe_failure_no_close_counterexample :
    (get_or_create_connection 10 1 (fun _ => false) (Except.ok 6) (Except.ok ())
      [(("u", "d"), ⟨5, 0⟩)] ("u", "d")).closedConns = []
    ∧ (get_or_create_connection 10 1 (fun _ => false) (Except.ok 6) (Except.ok ())
      [(("u", "d"), ⟨5, 0⟩)] ("u", "d")).result = Except.ok 6
    ∧ (get_or_create_connection 10 1 (fun _ => false) (Except.ok 6) (Except.ok ())
      [(("u", "d"), ⟨5, 0⟩)] ("u", "d")).factoryCalls = 1 :=
  ⟨rfl, rfl, rfl⟩

/-- C7 (amended): when the pool evicts an entry because its age exceeded the
TTL, `close()` is invoked on the underlying handle as part of the eviction,
before any replacement is created; when the pool evicts an entry because the
liveness probe failed, the entry is dropped without invoking `close()` (the
dead handle is simply discarded); and a caller closing its wrapper never
destroys anything - the wrapper close leaves the whole pool state unchanged. -/
theorem eviction_close_semantics (ttl : Int) (probe : Nat → Bool)
    (cr : Except String Nat) (ir : Except String Unit)
    (pool : ConnectionPool) (key : String × String) :
    (∀ (now : Int) (e : PoolEntry), dictFind pool key = some e →
      ttl < now - e.createdAt →
      (get_or_create_connection ttl now probe cr ir pool key).closedConns
        = [e.connId])
    ∧ (∀ (now : Int) (e : PoolEntry), dictFind pool key = some e →
      now - e.createdAt ≤ ttl → probe e.connId = false →
      (get_or_create_connection ttl now probe cr ir pool key).closedConns = [])
    ∧ (∀ (w : PooledConnectionWrapper) (s : PoolState),
      wrapperClose w s = ({ w with closed := true }, s)) := by
  refine ⟨?_, ?_, fun w s => rfl⟩
  · intro now e hfind hexp
    simp only [get_or_create_connection, hfind, if_pos hexp]
    exact createNewConnection_closedConns _ _ _ _ _ _
  · intro now e hfind hfresh hdead
    have hexp : ¬ (ttl < now - e.createdAt) := not_lt.mpr hfresh
    have hpr : ¬ (probe e.connId = true) := by simp [hdead]
    simp only [get_or_create_connection, hfind, if_neg hexp, if_neg hpr]
    exact createNewConnection_closedConns _ _ _ _ _ _

theorem eviction_close_semantics_witness :
    (get_or_create_connection 10 20 (fun _ => true) (Except.ok 6) (Except.ok ())
      [(("u", "d"), ⟨5, 0⟩)] ("u", "d")).closedConns = [5] :=
  (eviction_close_semantics 10 (fun _ => true) (Except.ok 6) (Except.ok ())
    [(("u", "d"), ⟨5, 0⟩)] ("u", "d")).1 20 ⟨5, 0⟩ rfl (by decide)

/-- C8: if building a new pooled resource fails - the connection constructor
raises, or the subsequent fallible one-time initialization raises (the UDF
registration step catches its own errors and never raises, dialect.py lines
102-118) - the error propagates both from `_get_or_create_connection` and
from `connect`, and no entry is recorded in the pool for that key: the key is
absent from the pool afterwards, every other key's entry is untouched, and
when the key was absent before the call the whole pool is left exactly as it
was before the failed attempt. (When a stale or dead entry existed, it was
already removed before the factory started, so the pool for that key is the
same as just before the failed build attempt: absent.) -/
theorem factory_failure_no_pool_entry (ttl now : Int) (probe : Nat → Bool)
    (cr : Except String Nat) (ir : Except String Unit) (pool : ConnectionPool)
    (userId databasePath : String)
    (hreach : dictFind pool (userId, databasePath) = none
      ∨ ∃ e, dictFind pool (userId, databasePath) = some e
          ∧ (ttl < now - e.createdAt ∨ probe e.connId = false)) :
    (∀ msg, cr = Except.error msg →
      (get_or_create_connection ttl now probe cr ir pool
        (userId, databasePath)).result = Except.error msg
      ∧ (dialectConnect ttl now probe cr ir pool userId databasePath).1
          = Except.error msg
      ∧ dictFind (get_or_create_connection ttl now probe cr ir pool
          (userId, databasePath)).pool (userId, databasePath) = none
      ∧ (∀ k2, k2 ≠ (userId, databasePath) →
          dictFind (get_or_create_connection ttl now probe cr ir pool
            (userId, databasePath)).pool k2 = dictFind pool k2)
      ∧ (dictFind pool (userId, databasePath) = none →
          (get_or_create_connection ttl now probe cr ir pool
            (userId, databasePath)).pool = pool))
    ∧ (∀ cid msg, cr = Except.ok cid → ir = Except.error msg →
      (get_or_create_connection ttl now probe cr ir pool
        (userId, databasePath)).result = Except.error msg
      ∧ (dialectConnect ttl now probe cr ir pool userId databasePath).1
          = Except.error msg
      ∧ dictFind (get_or_create_connection ttl now probe cr ir pool
          (userId, databasePath)).pool (userId, databasePath) = none
      ∧ (∀ k2, k2 ≠ (userId, databasePath) →
          dictFind (get_or_create_connection ttl now probe cr ir pool
            (userId, databasePath)).pool k2 = dictFind pool k2)
      ∧ (dictFind pool (userId, databasePath) = none →
          (get_or_create_connection ttl now probe cr ir pool
            (userId, databasePath)).pool = pool)) := by
  constructor
  · intro msg hcr
    have aux := acquire_fail_aux ttl now probe cr ir pool (userId, databasePath)
      msg hreach (Or.inl hcr)
    exact ⟨aux.1, by simp only [dialectConnect, aux.1], aux.2.1, aux.2.2.1,
      aux.2.2.2⟩
  · intro cid msg hcr hir2
    have aux := acquire_fail_aux ttl now probe cr ir pool (userId, databasePath)
      msg hreach (Or.inr ⟨cid, hcr, hir2⟩)
    exact ⟨aux.1, by simp only [dialectConnect, aux.1], aux.2.1, aux.2.2.1,
      aux.2.2.2⟩

theorem factory_failure_no_pool_entry_witness :
    (get_or_create_connection 3600 0 (fun _ => true) (Except.error "boom")
      (Except.ok ()) [] ("u", "d")).result = Except.error "boom"
    ∧ (get_or_create_connection 3600 0 (fun _ => true) (Except.error "boom")
      (Except.ok ()) [] ("u", "d")).pool = [] := by
  have h := (factory_failure_no_pool_entry 3600 0 (fun _ => true)
    (Except.error "boom") (Except.ok ()) [] "u" "d" (Or.inl rfl)).1 "boom" rfl
  exact ⟨h.1, h.2.2.2.2 rfl⟩

/-- C9 is refuted as stated: the URL cache of client.py is not protected by
any lock, and its check-then-evict-then-insert sequence for put is not one
atomic critical section - interleaving the two steps of two puts (both
capacity checks before both inserts) with capacity 1 yields a cache holding 2
entries, a state that no serialized (mutually-exclusive) execution of the two
puts can produce, since either serialization leaves exactly 1 entry. -/
theorem cache_put_interleaving_counterexample :
    (putInsertStep 0 "B" none (putInsertStep 0 "A" none
      (putEvictStep 1 (putEvictStep 1 [])))).length = 2
    ∧ (cachePut 1 0 (cachePut 1 0 [] "A" none) "B" none).length = 1
    ∧ (cachePut 1 0 (cachePut 1 0 [] "B" none) "A" none).length = 1 :=
  ⟨rfl, rfl, rfl⟩

/-- C9 (amended): the pool's entire acquire sequence for a key does run as one
atomic critical section under the class-level `_pool_lock`, so N concurrent
acquires for the same absent key serialize, invoke the factory exactly once,
and all receive the same underlying connection; the URL cache's get and put
sequences in client.py, however, are not under any mutual exclusion (no lock
exists there), and interleaving the steps of two puts can break the capacity
bound, as the third conjunct and the counterexample show. -/
theorem pool_atomic_cache_unsynchronized (ttl : Int) (probe : Nat → Bool)
    (cr : Except String Nat) (ir : Except String Unit)
    (pool : ConnectionPool) (key : String × String) (t0 : Int) (ts : List Int)
    (cid : Nat)
    (hmiss : dictFind pool key = none) (hcr : cr = Except.ok cid)
    (hir : ir = Except.ok ()) (hpr : probe cid = true)
    (hts : ∀ t ∈ ts, t - t0 ≤ ttl) :
    (acquireSeq ttl probe cr ir key (t0 :: ts) pool).1 = 1
    ∧ (acquireSeq ttl probe cr ir key (t0 :: ts) pool).2.1
        = (t0 :: ts).map (fun _ => Except.ok cid)
    ∧ (putInsertStep 0 "B" none (putInsertStep 0 "A" none
        (putEvictStep 1 (putEvictStep 1 [])))).length = 2 := by
  have h1 : get_or_create_connection ttl t0 probe cr ir pool key
      = { result := Except.ok cid, pool := dictInsert pool key ⟨cid, t0⟩,
          factoryCalls := 1, closedConns := [] } := by
    simp only [get_or_create_connection, hmiss, hcr, hir, createNewConnection]
  have h2 := acquireSeq_reuse ttl probe cr ir key cid t0 ts
    (dictInsert pool key ⟨cid, t0⟩) (dictFind_dictInsert_self _ _ _) hpr hts
  refine ⟨?_, ?_, rfl⟩
  · simp only [acquireSeq, h1, h2]
  · simp only [acquireSeq, h1, h2, List.map_cons]

theorem pool_atomic_cache_unsynchronized_witness :
    (acquireSeq 3600 (fun _ => true) (Except.ok 5) (Except.ok ()) ("u", "d")
      [0, 1, 2] []).1 = 1
    ∧ (acquireSeq 3600 (fun _ => true) (Except.ok 5) (Except.ok ()) ("u", "d")
      [0, 1, 2] []).2.1 = [Except.ok 5, Except.ok 5, Except.ok 5] := by
  have h := pool_atomic_cache_unsynchronized 3600 (fun _ => true) (Except.ok 5)
    (Except.ok ()) [] ("u", "d") 0 [1, 2] 5 rfl rfl rfl rfl (by decide)
  exact ⟨h.1, by rw [h.2.1]; rfl⟩

/-- C10: every transport error and every other unexpected exception from the
GraphQL service is caught inside `query_datasets`, which returns the empty
list instead of raising; consequently `openhexa_dataset_files` - which always
returns a DataFrame by construction, its return type `DataFrameModel` being
total - falls back to the fixed five-column schema (workspace, dataset,
version, filename, file_path) whenever the service fails, and likewise when a
successful query yields no records. -/
theorem query_datasets_error_empty_schema (e : QueryError) (wf : Option String) :
    query_datasets (Except.error e) wf = []
    ∧ openhexa_dataset_files (Except.error e) wf
        = DataFrameModel.emptyWithColumns EMPTY_SCHEMA
    ∧ openhexa_dataset_files (Except.ok []) wf
        = DataFrameModel.emptyWithColumns EMPTY_SCHEMA := by
  cases e <;> exact ⟨rfl, rfl, rfl⟩
